import Mathlib

/-
Verification development for resize_photos.py (JasonCookingBook).

Shallow-embedding conventions, fixed once for the whole file:

* File sizes are modelled in bytes as natural numbers.  The Python code
  compares sizes in kilobytes (get_file_size_kb returns size/1024, which is
  exact: division of an integer below 2^53 by the power of two 1024 is exact
  in IEEE double arithmetic).  A Python comparison of a KB value against an
  integer threshold t therefore translates exactly into a byte comparison
  against 1024*t, and the post-loop tolerance check
  final_size <= target_max_kb * 1.2 translates to 5*s <= 6144*tmax
  (both sides scaled by 5*1024; the constant 1.2 is modelled as the exact
  rational 6/5).
* The JPEG encoder is an oracle enc : width -> height -> quality -> Option bytes
  giving the encoded byte size of the (fixed) decoded source image re-encoded
  at the given dimensions and quality; none models an exception raised inside
  resize/save.  The source re-encodes from the original decoded image on every
  iteration (img.resize is applied to img, not cumulatively), so the encoded
  size is a function of the current width, height and quality only.
* Python's int(x * 0.9) on a nonnegative integer is modelled as 9*x/10 with
  natural division, and int(x * s) for the pre-scaling factor
  s = (target_max_kb*1024 / (original_size_kb*1024)) ** 0.5 is modelled in
  exact real arithmetic as the floor of x * sqrt(tmax*1024/origBytes).
* Effects on the processed file are reified: FileOutcome.unchanged means the
  file holds its original bytes, FileOutcome.replaced s means os.replace
  installed an encoded result of s bytes over it.
-/

namespace ResizePhotos

/-- State of the search loop of resize_image_to_target_size: current target
width and height (lines 73, 80-81, 116-117) and current JPEG quality
(lines 74, 113, 118, 122). -/
structure SearchState where
  w : ℕ
  h : ℕ
  q : ℕ
  deriving DecidableEq, Repr

/-- Result of one adjustment step of the loop body (lines 103-124): accept the
encoded result (in-range success), continue with a new state, or leave the
loop via the break on line 124. -/
inductive StepOut where
  | accept : StepOut
  | next : SearchState → StepOut
  | stop : StepOut
  deriving DecidableEq, Repr

/-- Discriminator: the step keeps the loop going. -/
def StepOut.isNext : StepOut → Bool
  | .next _ => true
  | _ => false

/-- What happened to the processed file on disk. -/
inductive FileOutcome where
  | unchanged : FileOutcome
  | replaced : ℕ → FileOutcome
  deriving DecidableEq, Repr

/-- Result of one call of resize_image_to_target_size: the returned boolean,
the effect on the file, and how many encode (save) calls were attempted. -/
structure RunResult where
  ok : Bool
  outcome : FileOutcome
  encodes : ℕ
  deriving DecidableEq, Repr

/-- Lines 103-124 of resize_photos.py: given the encoded size s (bytes) of the
current attempt, either accept it (target_min_kb <= size <= target_max_kb,
line 103), or adjust the state: too large and quality > 60 drops quality by 5
(lines 112-113); too large at quality <= 60 scales both dimensions by 0.9 and
sets quality to min(85, quality+10) (lines 116-118); too small at
quality < 95 raises quality by 5 (lines 121-122); too small at quality >= 95
breaks out of the loop (line 124). -/
def stepAdjust (tmin tmax s : ℕ) (st : SearchState) : StepOut :=
  if 1024 * tmin ≤ s ∧ s ≤ 1024 * tmax then .accept
  else if 1024 * tmax < s then
    if 60 < st.q then .next ⟨st.w, st.h, st.q - 5⟩
    else .next ⟨9 * st.w / 10, 9 * st.h / 10, min 85 (st.q + 10)⟩
  else
    if st.q < 95 then .next ⟨st.w, st.h, st.q + 5⟩
    else .stop

/-- Lines 88-143: the bounded search loop (fuel counts the remaining
attempts out of max_attempts = 15).  Each iteration encodes at the current
state (one save call, lines 96-97); an in-range result replaces the original
via os.replace and returns True (lines 103-107); the break path (line 124)
falls through to lines 133-140 where the still-existing temp file is accepted
iff its size is at most 1.2 * target_max_kb, i.e. 5*s <= 6144*tmax; on any
continuing iteration the temp file is deleted (lines 127-128) before the next
attempt, so exhausting the fuel reaches line 133 with no temp file left and
returns False with the original untouched (lines 142-143).  An encoder
exception (none) is caught by the handler on lines 145-147 and yields False
with the file unchanged. -/
def searchLoop (e : ℕ → ℕ → ℕ → Option ℕ) (tmin tmax : ℕ) :
    SearchState → ℕ → RunResult
  | _, 0 => ⟨false, .unchanged, 0⟩
  | st, fuel + 1 =>
    match e st.w st.h st.q with
    | none => ⟨false, .unchanged, 1⟩
    | some s =>
      match stepAdjust tmin tmax s st with
      | .accept => ⟨true, .replaced s, 1⟩
      | .stop =>
        if 5 * s ≤ 6144 * tmax then ⟨true, .replaced s, 1⟩
        else ⟨false, .unchanged, 1⟩
      | .next st2 =>
        match searchLoop e tmin tmax st2 fuel with
        | ⟨ok1, out1, k1⟩ => ⟨ok1, out1, k1 + 1⟩

/-- The list of loop states at which an encode is attempted, in order:
the state at the head of each executed iteration of the while loop. -/
def encodeStates (e : ℕ → ℕ → ℕ → Option ℕ) (tmin tmax : ℕ) :
    SearchState → ℕ → List SearchState
  | _, 0 => []
  | st, fuel + 1 =>
    st :: (match e st.w st.h st.q with
      | none => []
      | some s =>
        match stepAdjust tmin tmax s st with
        | .next st2 => encodeStates e tmin tmax st2 fuel
        | _ => [])

/-- The iteration starting at st neither accepts nor breaks: either the
encode fails (the loop is abandoned by the exception handler) or the
adjustment continues to a next state. -/
def keepsGoing (e : ℕ → ℕ → ℕ → Option ℕ) (tmin tmax : ℕ)
    (st : SearchState) : Bool :=
  match e st.w st.h st.q with
  | none => true
  | some s => (stepAdjust tmin tmax s st).isNext

/-- Line 79-81: int(d * scale_factor) with
scale_factor = (target_max_kb*1024 / (original_size_kb*1024)) ** 0.5,
in exact arithmetic the floor of d * sqrt(tmax*1024/bytes) — computed here as
Nat.sqrt (d^2 * tmax * 1024 * bytes) / bytes, which equals that floor
(proved in scaledDim_eq_floor below). -/
def scaledDim (d tmax bytes : ℕ) : ℕ :=
  Nat.sqrt (d ^ 2 * tmax * 1024 * bytes) / bytes

/-- Inputs of one resize_image_to_target_size call: the original file size in
bytes, the decoded image dimensions after EXIF transposition (lines 57-64),
whether decoding (open / exif_transpose / convert, lines 57-62) succeeds,
whether a backup was requested and whether creating it succeeds
(lines 47-53), and the encoder oracle. -/
structure ResizeArgs where
  origBytes : ℕ
  origW : ℕ
  origH : ℕ
  decodeOk : Bool
  backupRequested : Bool
  backupOk : Bool
  enc : ℕ → ℕ → ℕ → Option ℕ

/-- Lines 77-82: pre-scaling of the starting dimensions, applied exactly when
original_size_kb > target_max_kb * 3, i.e. origBytes > 3072 * tmax. -/
def startDims (a : ResizeArgs) (tmax : ℕ) : ℕ × ℕ :=
  if 3072 * tmax < a.origBytes then
    (scaledDim a.origW tmax a.origBytes, scaledDim a.origH tmax a.origBytes)
  else (a.origW, a.origH)

/-- The loop state on entry to the while loop: pre-scaled (or original)
dimensions, quality = quality_start (line 74). -/
def startState (a : ResizeArgs) (tmax qstart : ℕ) : SearchState :=
  ⟨(startDims a tmax).1, (startDims a tmax).2, qstart⟩

/-- Line 86: max_attempts = 15. -/
def maxAttempts : ℕ := 15

/-- Lines 31-147, resize_image_to_target_size, with sizes in bytes:
already in target range (line 42) returns True untouched with no encode;
a requested backup that fails returns False (lines 47-53); a decoding
exception is caught and returns False (lines 55-62, 145-147); an original
below the minimum returns True untouched (lines 68-70); otherwise the
search loop runs from the (possibly pre-scaled) start state. -/
def resizeModel (a : ResizeArgs) (tmin tmax qstart : ℕ) : RunResult :=
  if 1024 * tmin ≤ a.origBytes ∧ a.origBytes ≤ 1024 * tmax then
    ⟨true, .unchanged, 0⟩
  else if a.backupRequested = true ∧ a.backupOk = false then
    ⟨false, .unchanged, 0⟩
  else if a.decodeOk = false then ⟨false, .unchanged, 0⟩
  else if a.origBytes < 1024 * tmin then ⟨true, .unchanged, 0⟩
  else searchLoop a.enc tmin tmax (startState a tmax qstart) maxAttempts

/-- The encode-state trace of the search loop of one call. -/
def resizeTrace (a : ResizeArgs) (tmin tmax qstart : ℕ) : List SearchState :=
  encodeStates a.enc tmin tmax (startState a tmax qstart) maxAttempts

/-- Lines 190-193 of main: each file is processed by
resize_image_to_target_size with the default quality_start = 85. -/
def processBatch (tmin tmax : ℕ) (files : List ResizeArgs) : List RunResult :=
  files.map (fun a => resizeModel a tmin tmax 85)

/-- Lines 185-196 of main: success_count counts the files whose call
returned True. -/
def successCount (tmin tmax : ℕ) (files : List ResizeArgs) : ℕ :=
  (processBatch tmin tmax files).countP (fun r => r.ok)

/-- One line of the dry-run report (line 178-180): the file size that was
read, and whether it was flagged as needing a resize. -/
structure DryEntry where
  sizeBytes : ℕ
  needsResize : Bool
  deriving DecidableEq, Repr

/-- Lines 175-196 of main after argument parsing: with --dry-run the loop on
lines 177-180 only reads each file size and prints a status line, touching no
file; otherwise every file is processed and the summary count reported.  The
first component reifies the effect on each file of the source directory. -/
def mainRun (dryRun : Bool) (tmin tmax : ℕ) (files : List ResizeArgs) :
    List FileOutcome × List DryEntry × ℕ :=
  if dryRun then
    (files.map (fun _ => FileOutcome.unchanged),
     files.map (fun f =>
       ⟨f.origBytes,
        !(decide (1024 * tmin ≤ f.origBytes ∧ f.origBytes ≤ 1024 * tmax))⟩),
     0)
  else
    ((processBatch tmin tmax files).map RunResult.outcome, [],
     successCount tmin tmax files)

/-! Concrete instances used to evaluate the model on explicit inputs.
All sizes are bytes: 870400 = 850 KB, 921600 = 900 KB, 614400 = 600 KB,
716800 = 700 KB, 102400 = 100 KB, 2048000 = 2000 KB, 3072000 = 3000 KB,
851968 = 832 KB.  The encoder oracles are constant functions, standing for
images whose re-encoded size is insensitive to the parameter changes the
loop makes. -/

/-- An 850 KB original whose every re-encode is 100 KB. -/
def ca1 : ResizeArgs := ⟨870400, 3000, 2000, true, false, true, fun _ _ _ => some 102400⟩

/-- A 900 KB original whose every re-encode is 100 KB. -/
def ca1w : ResizeArgs := ⟨921600, 3000, 2000, true, false, true, fun _ _ _ => some 102400⟩

/-- An 850 KB original whose every re-encode is 850 KB. -/
def ca2 : ResizeArgs := ⟨870400, 3000, 2000, true, false, true, fun _ _ _ => some 870400⟩

/-- A 900 KB original whose every re-encode is 850 KB. -/
def ca2w : ResizeArgs := ⟨921600, 3000, 2000, true, false, true, fun _ _ _ => some 870400⟩

/-- An 850 KB original that is 1 pixel wide and 400000 pixels tall, with
every re-encode 850 KB. -/
def ca3 : ResizeArgs := ⟨870400, 1, 400000, true, false, true, fun _ _ _ => some 870400⟩

/-- An 850 KB original whose every re-encode is 832 KB. -/
def ca3w : ResizeArgs := ⟨870400, 3000, 2000, true, false, true, fun _ _ _ => some 851968⟩

/-- A 600 KB original, already inside the 500-800 KB target range. -/
def ca5w : ResizeArgs := ⟨614400, 1200, 900, true, false, true, fun _ _ _ => none⟩

/-- A 100 KB original, below the 500 KB minimum. -/
def ca6w : ResizeArgs := ⟨102400, 640, 480, true, false, true, fun _ _ _ => none⟩

/-- A 3000 KB original, more than three times the 800 KB maximum. -/
def ca7w : ResizeArgs := ⟨3072000, 3000, 2000, true, false, true, fun _ _ _ => none⟩

/-- A 600 KB original, in range, processed as part of a batch. -/
def ca8a : ResizeArgs := ⟨614400, 1200, 900, true, false, true, fun _ _ _ => none⟩

/-- An 850 KB original whose decoding raises (a corrupt file). -/
def ca8bad : ResizeArgs := ⟨870400, 100, 100, false, false, true, fun _ _ _ => none⟩

/-- A 700 KB original, in range, processed as part of a batch. -/
def ca8b : ResizeArgs := ⟨716800, 1200, 900, true, false, true, fun _ _ _ => none⟩

/-- An 850 KB original whose every re-encode is 2000 KB. -/
def ca10w : ResizeArgs := ⟨870400, 3000, 2000, true, false, true, fun _ _ _ => some 2048000⟩

/-! Helper lemmas about the loop body and the bounded loop. -/

lemma stepAdjust_accept_bounds (tmin tmax s : ℕ) (st : SearchState)
    (h : stepAdjust tmin tmax s st = .accept) :
    1024 * tmin ≤ s ∧ s ≤ 1024 * tmax := by
  unfold stepAdjust at h
  split_ifs at h with h1 h2 h3 h4
  exact h1

lemma stepAdjust_next_quality {tmin tmax s : ℕ} {st st2 : SearchState}
    (h : stepAdjust tmin tmax s st = .next st2)
    (h1 : 1 ≤ st.q) (h2 : st.q ≤ 100) : 1 ≤ st2.q ∧ st2.q ≤ 100 := by
  unfold stepAdjust at h
  split_ifs at h with g1 g2 g3
  · injection h with h; subst h; dsimp only; omega
  · injection h with h; subst h; dsimp only; omega
  · injection h with h; subst h; dsimp only; omega

lemma encodeStates_quality (e : ℕ → ℕ → ℕ → Option ℕ) (tmin tmax : ℕ) :
    ∀ (fuel : ℕ) (st : SearchState), 1 ≤ st.q → st.q ≤ 100 →
      ∀ st2 ∈ encodeStates e tmin tmax st fuel, 1 ≤ st2.q ∧ st2.q ≤ 100 := by
  intro fuel
  induction fuel with
  | zero =>
    intro st h1 h2 st2 hmem
    simp [encodeStates] at hmem
  | succ n ih =>
    intro st h1 h2 st2 hmem
    rw [encodeStates] at hmem
    rcases List.mem_cons.mp hmem with rfl | hmem2
    · exact ⟨h1, h2⟩
    · cases he : e st.w st.h st.q with
      | none => simp only [he] at hmem2; simp at hmem2
      | some s =>
        simp only [he] at hmem2
        cases hstep : stepAdjust tmin tmax s st with
        | accept => simp only [hstep] at hmem2; simp at hmem2
        | stop => simp only [hstep] at hmem2; simp at hmem2
        | next st3 =>
          simp only [hstep] at hmem2
          obtain ⟨k1, k2⟩ := stepAdjust_next_quality hstep h1 h2
          exact ih st3 k1 k2 st2 hmem2

lemma encodeStates_length (e : ℕ → ℕ → ℕ → Option ℕ) (tmin tmax : ℕ) :
    ∀ (fuel : ℕ) (st : SearchState),
      (encodeStates e tmin tmax st fuel).length ≤ fuel := by
  intro fuel
  induction fuel with
  | zero =>
    intro st
    simp [encodeStates]
  | succ n ih =>
    intro st
    rw [encodeStates]
    cases he : e st.w st.h st.q with
    | none => simp [he]
    | some s =>
      simp only [he]
      cases hstep : stepAdjust tmin tmax s st with
      | accept => simp [hstep]
      | stop => simp [hstep]
      | next st3 =>
        have := ih st3
        simp only [hstep, List.length_cons]
        omega

lemma searchLoop_success (e : ℕ → ℕ → ℕ → Option ℕ) (tmin tmax : ℕ) :
    ∀ (fuel : ℕ) (st : SearchState),
      (searchLoop e tmin tmax st fuel).ok = true →
      ∃ s, (searchLoop e tmin tmax st fuel).outcome = .replaced s ∧
        5 * s ≤ 6144 * tmax := by
  intro fuel
  induction fuel with
  | zero =>
    intro st h
    simp [searchLoop] at h
  | succ n ih =>
    intro st h
    rw [searchLoop] at h ⊢
    cases he : e st.w st.h st.q with
    | none => simp [he] at h
    | some s =>
      simp only [he] at h ⊢
      cases hstep : stepAdjust tmin tmax s st with
      | accept =>
        simp only [hstep] at h ⊢
        have hb := stepAdjust_accept_bounds tmin tmax s st hstep
        exact ⟨s, rfl, by omega⟩
      | stop =>
        simp only [hstep] at h ⊢
        split_ifs at h ⊢ with htol
        exact ⟨s, rfl, htol⟩
      | next st2 =>
        simp only [hstep] at h ⊢
        rcases hr : searchLoop e tmin tmax st2 n with ⟨ok1, out1, k1⟩
        simp only [hr] at h ⊢
        have := ih st2
        rw [hr] at this
        exact this h

lemma searchLoop_failure_unchanged (e : ℕ → ℕ → ℕ → Option ℕ) (tmin tmax : ℕ) :
    ∀ (fuel : ℕ) (st : SearchState),
      (searchLoop e tmin tmax st fuel).ok = false →
      (searchLoop e tmin tmax st fuel).outcome = .unchanged := by
  intro fuel
  induction fuel with
  | zero =>
    intro st h
    rfl
  | succ n ih =>
    intro st h
    rw [searchLoop] at h ⊢
    cases he : e st.w st.h st.q with
    | none => simp only [he]
    | some s =>
      simp only [he] at h ⊢
      cases hstep : stepAdjust tmin tmax s st with
      | accept => simp only [hstep] at h; simp at h
      | stop =>
        simp only [hstep] at h ⊢
        split_ifs at h ⊢ with htol
        simp_all
      | next st2 =>
        simp only [hstep] at h ⊢
        rcases hr : searchLoop e tmin tmax st2 n with ⟨ok1, out1, k1⟩
        simp only [hr] at h ⊢
        have := ih st2
        rw [hr] at this
        exact this h

lemma searchLoop_keepsGoing (e : ℕ → ℕ → ℕ → Option ℕ) (tmin tmax : ℕ) :
    ∀ (fuel : ℕ) (st : SearchState),
      (∀ st2 ∈ encodeStates e tmin tmax st fuel,
        keepsGoing e tmin tmax st2 = true) →
      (searchLoop e tmin tmax st fuel).ok = false ∧
      (searchLoop e tmin tmax st fuel).outcome = .unchanged := by
  intro fuel
  induction fuel with
  | zero =>
    intro st hg
    exact ⟨rfl, rfl⟩
  | succ n ih =>
    intro st hg
    have hghead : keepsGoing e tmin tmax st = true := by
      apply hg
      rw [encodeStates]
      exact List.mem_cons_self st _
    rw [searchLoop]
    cases he : e st.w st.h st.q with
    | none => simp [he]
    | some s =>
      unfold keepsGoing at hghead
      simp only [he] at hghead
      simp only [he]
      cases hstep : stepAdjust tmin tmax s st with
      | accept => simp [hstep, StepOut.isNext] at hghead
      | stop => simp [hstep, StepOut.isNext] at hghead
      | next st2 =>
        simp only [hstep]
        have htail : ∀ st3 ∈ encodeStates e tmin tmax st2 n,
            keepsGoing e tmin tmax st3 = true := by
          intro st3 hmem
          apply hg
          rw [encodeStates]
          simp only [he, hstep]
          exact List.mem_cons_of_mem st hmem
        have := ih st2 htail
        rcases hr : searchLoop e tmin tmax st2 n with ⟨ok1, out1, k1⟩
        simp only [hr]
        rw [hr] at this
        exact this

lemma scaledDim_eq_floor (d tmax bytes : ℕ) (hb : 0 < bytes) :
    scaledDim d tmax bytes =
      ⌊(d : ℝ) * Real.sqrt ((tmax : ℝ) * 1024 / (bytes : ℝ))⌋₊ := by
  have hbR : (0 : ℝ) < (bytes : ℝ) := by exact_mod_cast hb
  have hne : (bytes : ℝ) ≠ 0 := ne_of_gt hbR
  have h1 : (d : ℝ) * Real.sqrt ((tmax : ℝ) * 1024 / (bytes : ℝ))
      = Real.sqrt (((d ^ 2 * tmax * 1024 * bytes : ℕ) : ℝ)) / (bytes : ℝ) := by
    have hcast : ((d ^ 2 * tmax * 1024 * bytes : ℕ) : ℝ)
        = (d : ℝ) ^ 2 * ((tmax : ℝ) * 1024 / (bytes : ℝ)) * (bytes : ℝ) ^ 2 := by
      push_cast
      field_simp
      ring
    rw [hcast, Real.sqrt_mul (by positivity) ((bytes : ℝ) ^ 2),
        Real.sqrt_sq hbR.le,
        Real.sqrt_mul (by positivity) ((tmax : ℝ) * 1024 / (bytes : ℝ)),
        Real.sqrt_sq (by positivity : (0 : ℝ) ≤ (d : ℝ))]
    field_simp
    ring
  rw [h1, Nat.floor_div_nat, Real.nat_floor_real_sqrt_eq_nat_sqrt]
  rfl

/-! The claims. -/

/-- C1, corrected.  The original claim asserts that for an original strictly
above the maximum target, a successful run leaves a file whose size is within
[min, max*1.2] kilobytes.  The lower bound is wrong (see c1_counterexample):
the break path of the loop accepts a result below the minimum.  Amended
claim, proved here: for every image whose original size is strictly above the
maximum target, when resize_image_to_target_size returns success the
resulting file's size is at most max*1.2 kilobytes (it may lie below min),
and on every other path it returns failure. -/
theorem c1_success_size_at_most_120pct (a : ResizeArgs) (tmin tmax qstart : ℕ)
    (hmm : tmin ≤ tmax) (hbig : 1024 * tmax < a.origBytes)
    (hok : (resizeModel a tmin tmax qstart).ok = true) :
    ∃ s, (resizeModel a tmin tmax qstart).outcome = .replaced s ∧
      (s : ℚ) / 1024 ≤ (tmax : ℚ) * 12 / 10 := by
  unfold resizeModel at hok ⊢
  split_ifs at hok ⊢ with g1 g2 g3 g4
  · omega
  · omega
  · obtain ⟨s, hs1, hs2⟩ :=
      searchLoop_success a.enc tmin tmax maxAttempts (startState a tmax qstart) hok
    refine ⟨s, hs1, ?_⟩
    have h5 : ((5 * s : ℕ) : ℚ) ≤ ((6144 * tmax : ℕ) : ℚ) := Nat.cast_le.mpr hs2
    push_cast at h5
    linarith

/-- C1 counterexample: an 850 KB original (above the 800 KB maximum) whose
re-encodes are all 100 KB.  The loop raises quality 85, 90, 95, then breaks,
and the post-loop tolerance check accepts the 100 KB result: the call);
returns success with a file of 100 KB, strictly below the 500 KB minimum,
refuting the claimed lower bound min on success. -/
theorem c1_counterexample :
    1024 * 800 < ca1.origBytes ∧
    resizeModel ca1 500 800 85 = ⟨true, .replaced 102400, 3⟩ ∧
    102400 < 1024 * 500 := by decide

/-- C1 witness: the amended theorem applied to a 900 KB original whose
re-encodes are all 100 KB. -/
theorem c1_witness :
    ∃ s, (resizeModel ca1w 500 800 85).outcome = .replaced s ∧
      (s : ℚ) / 1024 ≤ ((800 : ℕ) : ℚ) * 12 / 10 :=
  c1_success_size_at_most_120pct ca1w 500 800 85 (by decide) (by decide) (by decide)

/-- C2, corrected.  The original claim asserts that when the attempt budget
is exhausted without an in-range result, the last encoded result is accepted
iff its size is at most max*1.2 KB.  In the code this is impossible: every
continuing iteration deletes the temp file (lines 127-128), so after real
budget exhaustion the post-loop block on lines 133-140 finds no temp file and
the function always returns failure (see c2_counterexample); the max*1.2
acceptance is reachable only through the quality-ceiling break.  Amended
claim, proved here: whenever the loop neither accepts an in-range result nor
reaches the quality-ceiling break - in particular on budget exhaustion - the
call returns failure and the original file is untouched, regardless of the
size of the last encode. -/
theorem c2_exhaustion_returns_failure (a : ResizeArgs) (tmin tmax qstart : ℕ)
    (hmm : tmin ≤ tmax) (hbig : 1024 * tmax < a.origBytes)
    (hloop : ∀ st ∈ resizeTrace a tmin tmax qstart,
      keepsGoing a.enc tmin tmax st = true) :
    (resizeModel a tmin tmax qstart).ok = false ∧
    (resizeModel a tmin tmax qstart).outcome = .unchanged := by
  unfold resizeTrace at hloop
  unfold resizeModel
  split_ifs with g1 g2 g3 g4
  · omega
  · exact ⟨rfl, rfl⟩
  · exact ⟨rfl, rfl⟩
  · omega
  · exact searchLoop_keepsGoing a.enc tmin tmax maxAttempts
      (startState a tmax qstart) hloop

/-- C2 counterexample: an 850 KB original whose re-encodes are all 850 KB.
All 15 attempts run (encodes = 15, sizes always above the 800 KB maximum, so
the budget is exhausted without landing in range), the last result satisfies
850 KB <= 1.2 * 800 KB = 960 KB, yet the call returns failure and leaves the
file unchanged - the claimed acceptance of the last result does not happen. -/
theorem c2_counterexample :
    1024 * 800 < ca2.origBytes ∧
    5 * 870400 ≤ 6144 * 800 ∧
    resizeModel ca2 500 800 85 = ⟨false, .unchanged, 15⟩ := by decide

/-- C2 witness: the amended theorem applied to a 900 KB original whose
re-encodes are all 850 KB. -/
theorem c2_witness :
    (resizeModel ca2w 500 800 85).ok = false ∧
    (resizeModel ca2w 500 800 85).outcome = .unchanged :=
  c2_exhaustion_returns_failure ca2w 500 800 85 (by decide) (by decide) (by decide)

/-- C3, corrected.  The original claim asserts that throughout the search
loop the quality stays in [1,100], the width and height stay strictly
positive, and the attempt count is bounded by a fixed constant.  The
dimension part is wrong: int(width * 0.9) maps a width of 1 to 0, so a
dimension can reach zero inside the loop (see c3_counterexample).  Amended
claim, proved here: throughout every execution of the loop the quality used
for encoding stays in [1,100] (whenever the starting quality does, as with
the default 85), and the number of attempts never exceeds max_attempts = 15;
dimensions may reach zero. -/
theorem c3_quality_and_attempts_invariant (a : ResizeArgs) (tmin tmax qstart : ℕ)
    (hq1 : 1 ≤ qstart) (hq2 : qstart ≤ 100) :
    (∀ st ∈ resizeTrace a tmin tmax qstart, 1 ≤ st.q ∧ st.q ≤ 100) ∧
    (resizeTrace a tmin tmax qstart).length ≤ maxAttempts := by
  unfold resizeTrace
  constructor
  · exact encodeStates_quality a.enc tmin tmax maxAttempts
      (startState a tmax qstart) hq1 hq2
  · exact encodeStates_length a.enc tmin tmax maxAttempts
      (startState a tmax qstart)

/-- C3 counterexample: an 850 KB image that is 1 pixel wide, whose re-encodes
are all 850 KB (above max).  Quality drops 85,80,...,60, then the dimension
reduction maps width 1 to int(1*0.9) = 0: the loop state with width 0 is
reached and encoding is attempted at it, refuting the claim that dimensions
stay strictly positive throughout the loop. -/
theorem c3_counterexample :
    1024 * 800 < ca3.origBytes ∧
    SearchState.mk 0 360000 70 ∈ resizeTrace ca3 500 800 85 := by decide

/-- C3 witness: the amended theorem applied to an 850 KB original; the start
state (3000 x 2000 at quality 85) is in the trace and satisfies the quality
bounds, and the trace length is within the attempt budget. -/
theorem c3_witness :
    SearchState.mk 3000 2000 85 ∈ resizeTrace ca3w 500 800 85 ∧
    (1 ≤ (SearchState.mk 3000 2000 85).q ∧ (SearchState.mk 3000 2000 85).q ≤ 100) ∧
    (resizeTrace ca3w 500 800 85).length ≤ maxAttempts :=
  ⟨by decide,
   (c3_quality_and_attempts_invariant ca3w 500 800 85 (by decide) (by decide)).1
     (SearchState.mk 3000 2000 85) (by decide),
   (c3_quality_and_attempts_invariant ca3w 500 800 85 (by decide) (by decide)).2⟩

/-- C4, confirmed.  Each iteration of the search loop adjusts the state as
claimed: an encoded size within [min, max] is accepted; a size above max
first reduces quality by the fixed step 5 while quality is above the floor
(quality > 60), and once the floor is reached instead reduces both dimensions
(by the factor 0.9, truncated) and resets quality to min(85, quality+10); a
size below min raises quality by the fixed step 5 while below the ceiling
(quality < 95), and at the ceiling stops the loop (the break that prefers the
under-target result, which the post-loop block then accepts rather than
exceeding the target).  Sizes are in bytes, targets in KB. -/
theorem c4_step_case_analysis (tmin tmax s : ℕ) (st : SearchState)
    (hmm : tmin ≤ tmax) :
    (1024 * tmin ≤ s ∧ s ≤ 1024 * tmax →
      stepAdjust tmin tmax s st = .accept) ∧
    (1024 * tmax < s → 60 < st.q →
      stepAdjust tmin tmax s st = .next ⟨st.w, st.h, st.q - 5⟩) ∧
    (1024 * tmax < s → st.q ≤ 60 →
      stepAdjust tmin tmax s st =
        .next ⟨9 * st.w / 10, 9 * st.h / 10, min 85 (st.q + 10)⟩) ∧
    (s < 1024 * tmin → st.q < 95 →
      stepAdjust tmin tmax s st = .next ⟨st.w, st.h, st.q + 5⟩) ∧
    (s < 1024 * tmin → 95 ≤ st.q → stepAdjust tmin tmax s st = .stop) := by
  refine ⟨?_, ?_, ?_, ?_, ?_⟩
  · intro h
    unfold stepAdjust
    rw [if_pos h]
  · intro h1 h2
    unfold stepAdjust
    rw [if_neg (by omega), if_pos h1, if_pos h2]
  · intro h1 h2
    unfold stepAdjust
    rw [if_neg (by omega), if_pos h1, if_neg (by omega)]
  · intro h1 h2
    unfold stepAdjust
    rw [if_neg (by omega), if_neg (by omega), if_pos h2]
  · intro h1 h2
    unfold stepAdjust
    rw [if_neg (by omega), if_neg (by omega), if_neg (by omega)]

/-- C4 witness: the case analysis applied at concrete inputs - a 600 KB
encode at quality 85 is accepted, and a 900 KB encode at quality 85 lowers
the quality to 80. -/
theorem c4_witness :
    stepAdjust 500 800 614400 ⟨100, 100, 85⟩ = .accept ∧
    stepAdjust 500 800 921600 ⟨100, 100, 85⟩ = .next ⟨100, 100, 80⟩ :=
  ⟨(c4_step_case_analysis 500 800 614400 ⟨100, 100, 85⟩ (by decide)).1 (by decide),
   (c4_step_case_analysis 500 800 921600 ⟨100, 100, 85⟩ (by decide)).2.1
     (by decide) (by decide)⟩

/-- C5, confirmed.  For every image whose original file size is already
within [min, max] kilobytes, resize_image_to_target_size performs no encoding
(zero save calls) and leaves the file byte-identical to the input, returning
success: the check on line 42 returns True before any backup, decode or
encode is attempted. -/
theorem c5_in_range_noop (a : ResizeArgs) (tmin tmax qstart : ℕ)
    (h1 : 1024 * tmin ≤ a.origBytes) (h2 : a.origBytes ≤ 1024 * tmax) :
    resizeModel a tmin tmax qstart = ⟨true, .unchanged, 0⟩ := by
  unfold resizeModel
  rw [if_pos ⟨h1, h2⟩]

/-- C5 witness: a 600 KB original with targets 500-800 KB. -/
theorem c5_witness : resizeModel ca5w 500 800 85 = ⟨true, .unchanged, 0⟩ :=
  c5_in_range_noop ca5w 500 800 85 (by decide) (by decide)

/-- C6, confirmed.  For every image whose original file size is strictly
below the minimum target, resize_image_to_target_size leaves the file
unchanged and returns success (lines 68-70), performing no encoding.  The
call must reach that check: decoding has to succeed (a corrupt file raises
first and returns failure, still leaving the file unchanged) and a requested
backup has to succeed. -/
theorem c6_below_min_unchanged (a : ResizeArgs) (tmin tmax qstart : ℕ)
    (hlow : a.origBytes < 1024 * tmin)
    (hdec : a.decodeOk = true)
    (hbak : a.backupRequested = true → a.backupOk = true) :
    resizeModel a tmin tmax qstart = ⟨true, .unchanged, 0⟩ := by
  have hg1 : ¬ (1024 * tmin ≤ a.origBytes ∧ a.origBytes ≤ 1024 * tmax) := by
    omega
  have hg2 : ¬ (a.backupRequested = true ∧ a.backupOk = false) := by
    rintro ⟨hb1, hb2⟩
    rw [hbak hb1] at hb2
    exact Bool.noConfusion hb2
  have hg3 : ¬ a.decodeOk = false := by
    rw [hdec]
    simp
  unfold resizeModel
  rw [if_neg hg1, if_neg hg2, if_neg hg3, if_pos hlow]

/-- C6 witness: a 100 KB original with targets 500-800 KB, valid image, no
backup requested. -/
theorem c6_witness : resizeModel ca6w 500 800 85 = ⟨true, .unchanged, 0⟩ :=
  c6_below_min_unchanged ca6w 500 800 85 (by decide) (by decide) (by decide)

/-- C7, confirmed.  The starting dimensions are pre-scaled if and only if the
original file size exceeds three times the maximum target
(original_size_kb > target_max_kb * 3, i.e. origBytes > 3072 * tmax), and the
pre-scaled dimensions are the original ones multiplied by the factor
sqrt(target/original) and truncated to integers: tmax*1024/origBytes is
exactly the KB ratio target_max_kb/original_size_kb, and the floor of
origW * sqrt of it is what int(original_width * scale_factor) computes in
exact arithmetic.  Otherwise the loop starts at the original dimensions. -/
theorem c7_prescale_iff (a : ResizeArgs) (tmax : ℕ) :
    (3072 * tmax < a.origBytes →
      (startDims a tmax).1 =
        ⌊(a.origW : ℝ) * Real.sqrt ((tmax : ℝ) * 1024 / (a.origBytes : ℝ))⌋₊ ∧
      (startDims a tmax).2 =
        ⌊(a.origH : ℝ) * Real.sqrt ((tmax : ℝ) * 1024 / (a.origBytes : ℝ))⌋₊) ∧
    (¬ 3072 * tmax < a.origBytes → startDims a tmax = (a.origW, a.origH)) := by
  constructor
  · intro h
    have hb : 0 < a.origBytes := lt_of_le_of_lt (Nat.zero_le _) h
    unfold startDims
    rw [if_pos h]
    exact ⟨scaledDim_eq_floor a.origW tmax a.origBytes hb,
      scaledDim_eq_floor a.origH tmax a.origBytes hb⟩
  · intro h
    unfold startDims
    rw [if_neg h]

/-- C7 witness: a 3000 KB original with maximum target 800 KB (3000 > 2400)
is pre-scaled; the starting width is the floor of 3000 * sqrt(800/3000). -/
theorem c7_witness :
    (startDims ca7w 800).1 =
      ⌊(ca7w.origW : ℝ) * Real.sqrt ((800 : ℕ) * 1024 / (ca7w.origBytes : ℝ))⌋₊ :=
  ((c7_prescale_iff ca7w 800).1 (by decide)).1

/-- C8, confirmed.  A per-file processing error (here: decoding raises on a
corrupt input) makes resize_image_to_target_size return failure for that file
only, leaving it unchanged; main continues with the remaining files (the
batch result is the per-file results of the prefix, the failure, and the
per-file results of the suffix) and the summary success count excludes the
failed file instead of the batch halting. -/
theorem c8_per_file_error_isolated (tmin tmax : ℕ) (pre post : List ResizeArgs)
    (bad : ResizeArgs)
    (hdec : bad.decodeOk = false)
    (hrange : ¬ (1024 * tmin ≤ bad.origBytes ∧ bad.origBytes ≤ 1024 * tmax))
    (hbak : ¬ (bad.backupRequested = true ∧ bad.backupOk = false)) :
    resizeModel bad tmin tmax 85 = ⟨false, .unchanged, 0⟩ ∧
    processBatch tmin tmax (pre ++ bad :: post) =
      processBatch tmin tmax pre ++
        RunResult.mk false .unchanged 0 :: processBatch tmin tmax post ∧
    successCount tmin tmax (pre ++ bad :: post) =
      successCount tmin tmax pre + successCount tmin tmax post := by
  have hbadr : resizeModel bad tmin tmax 85 = ⟨false, .unchanged, 0⟩ := by
    unfold resizeModel
    rw [if_neg hrange, if_neg hbak, if_pos hdec]
  refine ⟨hbadr, ?_, ?_⟩
  · unfold processBatch
    rw [List.map_append, List.map_cons, hbadr]
  · unfold successCount processBatch
    rw [List.map_append, List.map_cons, hbadr, List.countP_append,
      List.countP_cons]
    simp

/-- C8 witness: a batch of three files in which the middle one is corrupt;
the other two are in range and succeed, the summary counts 1 + 1. -/
theorem c8_witness :
    resizeModel ca8bad 500 800 85 = ⟨false, .unchanged, 0⟩ ∧
    processBatch 500 800 ([ca8a] ++ ca8bad :: [ca8b]) =
      processBatch 500 800 [ca8a] ++
        RunResult.mk false .unchanged 0 :: processBatch 500 800 [ca8b] ∧
    successCount 500 800 ([ca8a] ++ ca8bad :: [ca8b]) =
      successCount 500 800 [ca8a] + successCount 500 800 [ca8b] :=
  c8_per_file_error_isolated 500 800 [ca8a] [ca8b] ca8bad
    (by decide) (by decide) (by decide)

/-- C9, confirmed.  When the dry-run flag is set, main performs no file
modification whatsoever: the dry-run branch (lines 175-181) only reads each
file size and prints a status report, so the effect on every file of the
source directory is FileOutcome.unchanged. -/
theorem c9_dry_run_no_modification (tmin tmax : ℕ) (files : List ResizeArgs) :
    (mainRun true tmin tmax files).1 =
      files.map (fun _ => FileOutcome.unchanged) := rfl

/-- C10, confirmed.  Whenever resize_image_to_target_size returns failure,
the input image file is byte-identical to what it was before the call: the
original is only ever overwritten by os.replace on an accepted result
(lines 105, 136), never on the backup-failure, exception, rejection or
exhaustion paths. -/
theorem c10_failure_file_unchanged (a : ResizeArgs) (tmin tmax qstart : ℕ)
    (hfail : (resizeModel a tmin tmax qstart).ok = false) :
    (resizeModel a tmin tmax qstart).outcome = .unchanged := by
  unfold resizeModel at hfail ⊢
  split_ifs at hfail ⊢ with g1 g2 g3 g4
  · rfl
  · rfl
  · exact searchLoop_failure_unchanged a.enc tmin tmax maxAttempts
      (startState a tmax qstart) hfail

/-- C10 witness: an 850 KB original whose re-encodes are all 2000 KB; the
attempt budget runs out, the call fails, and the file is unchanged. -/
theorem c10_witness : (resizeModel ca10w 500 800 85).outcome = .unchanged :=
  c10_failure_file_unchanged ca10w 500 800 85 (by decide)

end ResizePhotos
